import Mathlib

/-!
Verification of the safe-calculator pipeline (`src/python.py`).

A shallow embedding of the parse–validate–evaluate pipeline of the
restricted arithmetic-expression evaluator.  The expression trees mirror
the node kinds CPython's `ast` module produces in `eval` mode; the
validator is a direct translation of `SafeEvaluator`; the evaluator and
the default name table model `eval`/`build_safe_names` over exact real
numbers (IEEE doubles are modelled at real-number granularity, with
explicit infinity and NaN markers).
-/

set_option maxHeartbeats 1000000

/-- Binary operator tags, one per `ast` binary-operator class. -/
inductive BinOpK
| add | sub | mult | div | mod | pow | floorDiv
| matMult | lShift | rShift | bitOr | bitXor | bitAnd
deriving DecidableEq

/-- The `__class__.__name__` of each binary operator node. -/
def binOpClassName : BinOpK → String
| .add => "Add"
| .sub => "Sub"
| .mult => "Mult"
| .div => "Div"
| .mod => "Mod"
| .pow => "Pow"
| .floorDiv => "FloorDiv"
| .matMult => "MatMult"
| .lShift => "LShift"
| .rShift => "RShift"
| .bitOr => "BitOr"
| .bitXor => "BitXor"
| .bitAnd => "BitAnd"

/-- Unary operator tags, one per `ast` unary-operator class. -/
inductive UnaryOpK
| uAdd | uSub | notOp | invert
deriving DecidableEq

/-- The `__class__.__name__` of each unary operator node. -/
def unaryOpClassName : UnaryOpK → String
| .uAdd => "UAdd"
| .uSub => "USub"
| .notOp => "Not"
| .invert => "Invert"

/-- The value carried by an `ast.Constant` node.  Numeric literals are
recorded exactly (float literals are decimal, hence rational).  `boolC`
is kept separate from `intC` because `bool` is its own class in Python,
but note that `bool` is a *subclass* of `int`, so
`isinstance(True, int)` holds. -/
inductive ConstVal
| intC (n : ℤ)
| floatC (q : ℚ)
| complexC (re im : ℚ)
| boolC (b : Bool)
| strC (s : String)
| bytesC (s : String)
| noneC
deriving DecidableEq

/-- `isinstance(v, (int, float, complex))`, the check of
`visit_Constant`.  `boolC` satisfies it because `bool` is a subclass of
`int` in Python. -/
def ConstVal.isPyNumber : ConstVal → Bool
| .intC _ => true
| .floatC _ => true
| .complexC _ _ => true
| .boolC _ => true
| .strC _ => false
| .bytesC _ => false
| .noneC => false

/-- Expression nodes, mirroring the node kinds `ast.parse(·, mode='eval')`
can place below the `Expression` root.  The first five constructors are
the kinds `SafeEvaluator` has dedicated `visit_` methods for (besides
`visit_Attribute`, which always rejects); the remaining constructors are
the disallowed kinds that fall to `generic_visit`.  Name nodes carry no
context marker: in `eval` mode every `Name` context is `Load` and the
visitor never descends into contexts. -/
inductive Expr
| binOp (op : BinOpK) (left right : Expr)
| unaryOp (op : UnaryOpK) (operand : Expr)
| call (func : Expr) (args : List Expr) (keywords : List (String × Expr))
| name (id : String)
| constant (v : ConstVal)
| attribute (value : Expr) (attr : String)
| subscript (value index : Expr)
| listLit (elts : List Expr)
| tupleLit (elts : List Expr)
| setLit (elts : List Expr)
| dictLit (entries : List (Expr × Expr))
| compare (left : Expr) (comparators : List Expr)
| boolOp (values : List Expr)
| ifExp (test body orelse : Expr)
| lambdaE (body : Expr)
| listComp (elt : Expr)
| generatorExp (elt : Expr)
| namedExpr (target : String) (value : Expr)
| joinedStr (values : List Expr)
| starred (value : Expr)

/-- `node.__class__.__name__` for each expression node kind. -/
def Expr.className : Expr → String
| .binOp _ _ _ => "BinOp"
| .unaryOp _ _ => "UnaryOp"
| .call _ _ _ => "Call"
| .name _ => "Name"
| .constant _ => "Constant"
| .attribute _ _ => "Attribute"
| .subscript _ _ => "Subscript"
| .listLit _ => "List"
| .tupleLit _ => "Tuple"
| .setLit _ => "Set"
| .dictLit _ => "Dict"
| .compare _ _ => "Compare"
| .boolOp _ => "BoolOp"
| .ifExp _ _ _ => "IfExp"
| .lambdaE _ => "Lambda"
| .listComp _ => "ListComp"
| .generatorExp _ => "GeneratorExp"
| .namedExpr _ _ => "NamedExpr"
| .joinedStr _ => "JoinedStr"
| .starred _ => "Starred"

/-- The `ast.Expression` root node produced by `mode='eval'` parsing. -/
structure Expression where
body : Expr

/-- A Python float, at real-number granularity: a finite value is an
exact real; the IEEE special values keep their identity.  (Signed zero
is not distinguished.) -/
inductive PyFloat
| finite (x : ℝ)
| inf (neg : Bool)
| nan

/-- A runtime value that can appear in the name table or result from
evaluation.  Function objects are represented by name; their behaviour
is supplied separately to the evaluator (see `safe_eval`). -/
inductive EvalVal
| intV (n : ℤ)
| boolV (b : Bool)
| floatV (x : PyFloat)
| complexV (re im : PyFloat)
| strV (s : String)
| bytesV (s : String)
| noneV
| funcV (fname : String)
| tupleV (elts : List EvalVal)

/-- Python's `type(v).__name__`. -/
def EvalVal.typeName : EvalVal → String
| .intV _ => "int"
| .boolV _ => "bool"
| .floatV _ => "float"
| .complexV _ _ => "complex"
| .strV _ => "str"
| .bytesV _ => "bytes"
| .noneV => "NoneType"
| .funcV _ => "builtin_function_or_method"
| .tupleV _ => "tuple"

/-- The name table: `Dict[str, Any]` with insertion order; lookup is by
key (keys below are pairwise distinct, so first-match lookup agrees with
`dict` lookup). -/
abbrev NameTable := List (String × EvalVal)

/-- Dictionary key lookup, `names[k]` / `k in names`. -/
def NameTable.lookup (t : NameTable) (k : String) : Option EvalVal :=
List.lookup k t

/-- `SafeEvaluator.ALLOWED_BINOPS`. -/
def ALLOWED_BINOPS : List BinOpK :=
[.add, .sub, .mult, .div, .mod, .pow, .floorDiv]

/-- `SafeEvaluator.ALLOWED_UNARYOPS`. -/
def ALLOWED_UNARYOPS : List UnaryOpK :=
[.uAdd, .uSub]

mutual

/-- `SafeEvaluator.visit` on an expression node: dispatch to the
`visit_` method matching the node's class, or to `generic_visit` when
none exists.  A raised `ValueError(msg)` becomes `.error msg`.
`generic_visit` is reached exactly by the node kinds without a dedicated
method; none of those is in its `allowed` tuple (the tuple's members —
`Expression`, `BinOp`, `UnaryOp`, `Call`, `Name`, `Load`, `Constant`,
`Num` — either have methods or are never visited), so it rejects with
the node's class name. -/
def visitE (names : NameTable) : Expr → Except String Unit
| .binOp op left right =>
  if op ∈ ALLOWED_BINOPS then do
    visitE names left
    visitE names right
  else
    .error ("Operator " ++ binOpClassName op ++ " not allowed")
| .unaryOp op operand =>
  if op ∈ ALLOWED_UNARYOPS then
    visitE names operand
  else
    .error ("Unary operator " ++ unaryOpClassName op ++ " not allowed")
| .call func args keywords =>
  match func with
  | .name fid =>
    if (names.lookup fid).isSome then
      if keywords.isEmpty then
        visitArgs names args
      else
        .error "Keyword arguments are not allowed"
    else
      .error ("Function '" ++ fid ++ "' is not allowed")
  | _ => .error "Only direct function calls are allowed"
| .name id =>
  if (names.lookup id).isSome then .ok ()
  else .error ("Name '" ++ id ++ "' is not allowed")
| .constant v =>
  if v.isPyNumber then .ok ()
  else .error "Only numeric constants are allowed"
| .attribute _ _ => .error "Attribute access is not allowed"
| e => .error ("Node type " ++ e.className ++ " not allowed")
termination_by structural e => e

/-- `for arg in node.args: self.visit(arg)` — sequential visiting of the
positional arguments of a call, stopping at the first rejection. -/
def visitArgs (names : NameTable) : List Expr → Except String Unit
| [] => .ok ()
| a :: rest => do
  visitE names a
  visitArgs names rest
termination_by structural l => l

end

/-! ## Host numeric semantics

Modelled from the spec: §4.3 fixes the numeric semantics to those of the
host runtime (CPython's `int`, `float` and `complex`), which is not part
of `src/`.  Finite floats are exact reals; the IEEE special values are
explicit.  Division, modulo and floor division by zero raise
`ZeroDivisionError`, as in CPython. -/

/-- Errors a `safe_eval` call can surface: the parser's `SyntaxError`,
the validator's `ValueError` (also used by `math` domain errors), and
the runtime errors of evaluation. -/
inductive PyErr
| syntaxError (msg : String)
| valueError (msg : String)
| zeroDivisionError (msg : String)
| typeError (msg : String)
| overflowError (msg : String)
| nameError (msg : String)

/-- IEEE addition at real granularity. -/
noncomputable def fAdd : PyFloat → PyFloat → PyFloat
| .nan, _ => .nan
| _, .nan => .nan
| .inf s, .inf t => if s = t then .inf s else .nan
| .inf s, .finite _ => .inf s
| .finite _, .inf t => .inf t
| .finite x, .finite y => .finite (x + y)

/-- IEEE negation. -/
def fNeg : PyFloat → PyFloat
| .nan => .nan
| .inf s => .inf (!s)
| .finite x => .finite (-x)

noncomputable def fSub (a b : PyFloat) : PyFloat := fAdd a (fNeg b)

/-- IEEE multiplication at real granularity. -/
noncomputable def fMul : PyFloat → PyFloat → PyFloat
| .nan, _ => .nan
| _, .nan => .nan
| .inf s, .inf t => .inf (s != t)
| .inf s, .finite y => if y = 0 then .nan else .inf (s != decide (y < 0))
| .finite x, .inf t => if x = 0 then .nan else .inf (t != decide (x < 0))
| .finite x, .finite y => .finite (x * y)

/-- IEEE division; the zero-divisor case is excluded beforehand (CPython
raises `ZeroDivisionError` there). -/
noncomputable def fDiv : PyFloat → PyFloat → PyFloat
| .nan, _ => .nan
| _, .nan => .nan
| .inf _, .inf _ => .nan
| .inf s, .finite y => .inf (s != decide (y < 0))
| .finite _, .inf _ => .finite 0
| .finite x, .finite y => .finite (x / y)

/-- `float.__mod__` (divisor nonzero): the result takes the divisor's
sign; `x % y = x - y*floor(x/y)` in the finite case. -/
noncomputable def fMod : PyFloat → PyFloat → PyFloat
| .nan, _ => .nan
| _, .nan => .nan
| .inf _, _ => .nan
| .finite x, .inf s =>
  if x = 0 then .finite 0
  else if decide (x < 0) = s then .finite x else .inf s
| .finite x, .finite y => .finite (x - y * (⌊x / y⌋ : ℤ))

/-- `float.__floordiv__` (divisor nonzero): `floor(x/y)` as a float;
an infinite dividend yields NaN (CPython computes it via `divmod`). -/
noncomputable def fFloorDiv : PyFloat → PyFloat → PyFloat
| .nan, _ => .nan
| _, .nan => .nan
| .inf _, _ => .nan
| .finite x, .inf s =>
  if x = 0 then .finite 0
  else if decide (x < 0) = s then .finite 0 else .finite (-1)
| .finite x, .finite y => .finite ((⌊x / y⌋ : ℤ) : ℝ)

/-- `<` on floats; any NaN operand compares false. -/
noncomputable def fLt : PyFloat → PyFloat → Bool
| .nan, _ => false
| _, .nan => false
| .inf s, .inf t => s && !t
| .inf s, .finite _ => s
| .finite _, .inf t => !t
| .finite x, .finite y => decide (x < y)

/-- Absolute value on floats. -/
noncomputable def fAbs : PyFloat → PyFloat
| .nan => .nan
| .inf _ => .inf false
| .finite x => .finite |x|

/-- Numeric values after coercion: Python's numeric tower
(`bool ⊂ int`, `int → float → complex`). -/
inductive NumVal
| i (n : ℤ)
| f (x : PyFloat)
| c (re im : PyFloat)

/-- Coerce a value into the numeric tower, if it is numeric. -/
def toNum : EvalVal → Option NumVal
| .intV n => some (.i n)
| .boolV b => some (.i (if b then 1 else 0))
| .floatV x => some (.f x)
| .complexV re im => some (.c re im)
| _ => none

def numToVal : NumVal → EvalVal
| .i n => .intV n
| .f x => .floatV x
| .c re im => .complexV re im

/-- Widen an int into a float. -/
def numFloat : NumVal → PyFloat
| .i n => .finite (n : ℝ)
| .f x => x
| .c re _ => re

/-- Widen into complex parts. -/
def numComplex : NumVal → PyFloat × PyFloat
| .i n => (.finite (n : ℝ), .finite 0)
| .f x => (x, .finite 0)
| .c re im => (re, im)

/-- `int` arithmetic (`int op int`).  True division always produces a
float; `//` and `%` follow Python's floor-division convention. -/
noncomputable def intBinOp : BinOpK → ℤ → ℤ → Except PyErr NumVal
| .add, a, b => .ok (.i (a + b))
| .sub, a, b => .ok (.i (a - b))
| .mult, a, b => .ok (.i (a * b))
| .div, a, b =>
  if b = 0 then .error (.zeroDivisionError "division by zero")
  else .ok (.f (.finite ((a : ℝ) / (b : ℝ))))
| .mod, a, b =>
  if b = 0 then .error (.zeroDivisionError "integer modulo by zero")
  else .ok (.i (Int.fmod a b))
| .floorDiv, a, b =>
  if b = 0 then .error (.zeroDivisionError "integer division or modulo by zero")
  else .ok (.i (Int.fdiv a b))
| .pow, a, b =>
  if 0 ≤ b then .ok (.i (a ^ b.toNat))
  else if a = 0 then .error (.zeroDivisionError "0.0 cannot be raised to a negative power")
  else .ok (.f (.finite ((a : ℝ) ^ (b : ℤ))))
| op, _, _ => .error (.typeError ("unsupported operand type(s) for " ++ binOpClassName op))

/-- Whether a float is an integral real value. -/
def fIsInt : PyFloat → Prop
| .finite x => (⌊x⌋ : ℝ) = x
| _ => False

noncomputable instance : DecidablePred fIsInt := fun x =>
match x with
| .finite y => inferInstanceAs (Decidable ((⌊y⌋ : ℝ) = y))
| .inf _ => inferInstanceAs (Decidable False)
| .nan => inferInstanceAs (Decidable False)

/-- `float ** float` (CPython `float_pow`): `1 ** y` and `x ** 0` are
`1.0`; NaN propagates; `0.0 ** negative` raises; a negative base with a
non-integral exponent gives a complex result (via `complex.__pow__`
semantics). Infinite operands are modelled coarsely. -/
noncomputable def fPow (x y : PyFloat) : Except PyErr NumVal :=
match x, y with
| .finite a, .finite b =>
  if a = 1 ∨ b = 0 then .ok (.f (.finite 1))
  else if 0 < a then .ok (.f (.finite (Real.rpow a b)))
  else if a = 0 then
    if 0 < b then .ok (.f (.finite 0))
    else .error (.zeroDivisionError "0.0 cannot be raised to a negative power")
  else if (⌊b⌋ : ℝ) = b then
    .ok (.f (.finite (if Even ⌊b⌋ then Real.rpow (-a) b else -Real.rpow (-a) b)))
  else
    .ok (.c (.finite ((Complex.cpow ⟨a, 0⟩ ⟨b, 0⟩).re) ) (.finite ((Complex.cpow ⟨a, 0⟩ ⟨b, 0⟩).im)))
| .nan, .finite b => if b = 0 then .ok (.f (.finite 1)) else .ok (.f .nan)
| .finite a, .nan => if a = 1 then .ok (.f (.finite 1)) else .ok (.f .nan)
| .nan, .nan => .ok (.f .nan)
| .inf s, y =>
  if fLt (.finite 0) y then .ok (.f (.inf s))
  else if fLt y (.finite 0) then .ok (.f (.finite 0))
  else .ok (.f .nan)
| x, .inf t =>
  if fLt (.finite 1) (fAbs x) then .ok (.f (if t then .finite 0 else .inf false))
  else if fLt (fAbs x) (.finite 1) then .ok (.f (if t then .inf false else .finite 0))
  else .ok (.f (.finite 1))

/-- `float op float` after coercion. -/
noncomputable def floatBinOp : BinOpK → PyFloat → PyFloat → Except PyErr NumVal
| .add, x, y => .ok (.f (fAdd x y))
| .sub, x, y => .ok (.f (fSub x y))
| .mult, x, y => .ok (.f (fMul x y))
| .div, x, y =>
  match y with
  | .finite b => if b = 0 then .error (.zeroDivisionError "float division by zero")
                 else .ok (.f (fDiv x (.finite b)))
  | _ => .ok (.f (fDiv x y))
| .mod, x, y =>
  match y with
  | .finite b => if b = 0 then .error (.zeroDivisionError "float modulo")
                 else .ok (.f (fMod x (.finite b)))
  | _ => .ok (.f (fMod x y))
| .floorDiv, x, y =>
  match y with
  | .finite b => if b = 0 then .error (.zeroDivisionError "float floor division by zero")
                 else .ok (.f (fFloorDiv x (.finite b)))
  | _ => .ok (.f (fFloorDiv x y))
| .pow, x, y => fPow x y
| op, _, _ => .error (.typeError ("unsupported operand type(s) for " ++ binOpClassName op))

/-- Complex arithmetic on exact parts; nonfinite parts are modelled
coarsely as NaN results.  `%` and `//` are not defined on complex. -/
noncomputable def complexBinOp : BinOpK → PyFloat × PyFloat → PyFloat × PyFloat → Except PyErr NumVal
| .add, (a, b), (c, d) => .ok (.c (fAdd a c) (fAdd b d))
| .sub, (a, b), (c, d) => .ok (.c (fSub a c) (fSub b d))
| .mult, (a, b), (c, d) => .ok (.c (fSub (fMul a c) (fMul b d)) (fAdd (fMul a d) (fMul b c)))
| .div, (a, b), (c, d) =>
  match a, b, c, d with
  | .finite a, .finite b, .finite c, .finite d =>
    if c = 0 ∧ d = 0 then .error (.zeroDivisionError "complex division by zero")
    else .ok (.c (.finite ((a * c + b * d) / (c ^ 2 + d ^ 2)))
                 (.finite ((b * c - a * d) / (c ^ 2 + d ^ 2))))
  | _, _, _, _ => .ok (.c .nan .nan)
| .mod, _, _ => .error (.typeError "unsupported operand type(s) for %: 'complex' and 'complex'")
| .floorDiv, _, _ => .error (.typeError "unsupported operand type(s) for //: 'complex' and 'complex'")
| .pow, (a, b), (c, d) =>
  match a, b, c, d with
  | .finite a, .finite b, .finite c, .finite d =>
    if (a = 0 ∧ b = 0) ∧ c < 0 then
      .error (.zeroDivisionError "zero to a negative or complex power")
    else
      .ok (.c (.finite ((Complex.cpow ⟨a, b⟩ ⟨c, d⟩).re)) (.finite ((Complex.cpow ⟨a, b⟩ ⟨c, d⟩).im)))
  | _, _, _, _ => .ok (.c .nan .nan)
| op, _, _ => .error (.typeError ("unsupported operand type(s) for " ++ binOpClassName op))

/-- A binary operation on two numeric values: ints stay ints, otherwise
operands are coerced up the tower (`int → float → complex`). -/
noncomputable def numBinOp (op : BinOpK) : NumVal → NumVal → Except PyErr NumVal
| .i a, .i b => intBinOp op a b
| .c ar ai, b => complexBinOp op (ar, ai) (numComplex b)
| a, .c br bi => complexBinOp op (numComplex a) (br, bi)
| a, b => floatBinOp op (numFloat a) (numFloat b)

/-- Python's binary operator protocol on runtime values: numeric pairs
via the tower; `str`/`bytes`/`tuple` support `+` (concatenation) and
`*` with an int (repetition); everything else is a `TypeError`. -/
noncomputable def pyBinOp (op : BinOpK) (a b : EvalVal) : Except PyErr EvalVal :=
match toNum a, toNum b with
| some x, some y => (numBinOp op x y).map numToVal
| _, _ =>
  match op, a, b with
  | .add, .strV s, .strV t => .ok (.strV (s ++ t))
  | .add, .bytesV s, .bytesV t => .ok (.bytesV (s ++ t))
  | .add, .tupleV s, .tupleV t => .ok (.tupleV (s ++ t))
  | .mult, .strV s, .intV n => .ok (.strV (String.join (List.replicate n.toNat s)))
  | .mult, .intV n, .strV s => .ok (.strV (String.join (List.replicate n.toNat s)))
  | .mult, .tupleV s, .intV n => .ok (.tupleV (List.flatten (List.replicate n.toNat s)))
  | .mult, .intV n, .tupleV s => .ok (.tupleV (List.flatten (List.replicate n.toNat s)))
  | op, x, y =>
    .error (.typeError ("unsupported operand type(s) for " ++ binOpClassName op ++ ": '"
      ++ x.typeName ++ "' and '" ++ y.typeName ++ "'"))

/-- Python's unary operator protocol.  `not` and `~` never reach the
evaluator on a validated tree but are modelled for totality. -/
noncomputable def pyUnaryOp (op : UnaryOpK) (a : EvalVal) : Except PyErr EvalVal :=
match op, toNum a with
| .uAdd, some x => .ok (numToVal x)
| .uSub, some (.i n) => .ok (.intV (-n))
| .uSub, some (.f x) => .ok (.floatV (fNeg x))
| .uSub, some (.c re im) => .ok (.complexV (fNeg re) (fNeg im))
| .invert, some (.i n) => .ok (.intV (-(n + 1)))
| .notOp, _ => .error (.typeError "operator Not is not modelled")
| op, _ =>
  .error (.typeError ("bad operand type for unary " ++ unaryOpClassName op ++ ": '"
    ++ a.typeName ++ "'"))

/-- The runtime value of a `Constant` node. -/
noncomputable def constToVal : ConstVal → EvalVal
| .intC n => .intV n
| .floatC q => .floatV (.finite (q : ℝ))
| .complexC re im => .complexV (.finite (re : ℝ)) (.finite (im : ℝ))
| .boolC b => .boolV b
| .strC s => .strV s
| .bytesC s => .bytesV s
| .noneC => .noneV

/-- The behaviour of the function objects a name table can hold,
indexed by the name under `EvalVal.funcV`: applying the object to a
list of positional arguments. -/
def FuncImpl := String → List EvalVal → Except PyErr EvalVal

mutual

/-- `eval(code, {'__builtins__': None}, names)` on a parsed expression
body: CPython's compiled-expression evaluation, specialised to the node
kinds of this tree type.  Constants evaluate to their value, names to
their table entry (`NameError` when absent, since builtins are
disabled), operators through the numeric protocol, and calls evaluate
the callee and the positional arguments and then apply the callee
(`TypeError` when it is not callable).  Node kinds that a certified
tree can never contain are modelled as runtime `TypeError`s; `safe_eval`
never reaches them. -/
noncomputable def evalE (impl : FuncImpl) (names : NameTable) : Expr → Except PyErr EvalVal
| .constant c => .ok (constToVal c)
| .name id =>
  match names.lookup id with
  | some v => .ok v
  | none => .error (.nameError ("name '" ++ id ++ "' is not defined"))
| .binOp op left right => do
  let a ← evalE impl names left
  let b ← evalE impl names right
  pyBinOp op a b
| .unaryOp op operand => do
  let a ← evalE impl names operand
  pyUnaryOp op a
| .call func args keywords => do
  let fv ← evalE impl names func
  let avs ← evalArgsE impl names args
  if keywords.isEmpty then
    match fv with
    | .funcV fname => impl fname avs
    | v => .error (.typeError ("'" ++ v.typeName ++ "' object is not callable"))
  else
    .error (.typeError "keyword arguments are not modelled")
| e => .error (.typeError ("evaluation of " ++ e.className ++ " nodes is not modelled"))
termination_by structural e => e

/-- Left-to-right evaluation of the positional arguments of a call. -/
noncomputable def evalArgsE (impl : FuncImpl) (names : NameTable) : List Expr → Except PyErr (List EvalVal)
| [] => .ok []
| a :: rest => do
  let v ← evalE impl names a
  let vs ← evalArgsE impl names rest
  .ok (v :: vs)
termination_by structural l => l

end

/-- `SafeEvaluator(names).visit(tree)` on the `Expression` root:
`visit_Expression` recurses into the body. -/
def visitExpression (names : NameTable) (tree : Expression) : Except String Unit :=
visitE names tree.body

/-- Evaluation of the `Expression` root. -/
noncomputable def evalExpression (impl : FuncImpl) (names : NameTable) (tree : Expression) : Except PyErr EvalVal :=
evalE impl names tree.body

/-- `safe_eval` from the point where the tree exists: validate the tree
against `names`, and only on certification evaluate it against the very
same `names`.  A `ValueError` raised by the validator propagates
unchanged. -/
noncomputable def safe_eval (impl : FuncImpl) (names : NameTable) (tree : Expression) : Except PyErr EvalVal :=
match visitExpression names tree with
| .error m => .error (.valueError m)
| .ok () => evalExpression impl names tree

/-- The whole `safe_eval` pipeline including the parse step, which is
delegated to the host grammar (`ast.parse(expression, mode='eval')`) and
therefore enters the model as an already-computed parse outcome: a
`SyntaxError` aborts the pipeline before validation. -/
noncomputable def safe_eval_parsed (impl : FuncImpl) (names : NameTable) : Except String Expression → Except PyErr EvalVal
| .error m => .error (.syntaxError m)
| .ok tree => safe_eval impl names tree

/-! ## The default name table

Modelled from the spec: `build_safe_names` binds every public name of
the host `math` module (CPython 3.11) plus the builtins `abs`, `round`,
`min` and `max` (§6).  The module itself lives in the host runtime, not
in `src/`; its functions are modelled below at real-number granularity. -/

/-- Shorthand: a finite float result. -/
noncomputable def okF (x : ℝ) : Except PyErr EvalVal := .ok (.floatV (.finite x))

/-- Shorthand: an int result. -/
def okI (n : ℤ) : Except PyErr EvalVal := .ok (.intV n)

/-- `ValueError('math domain error')`. -/
def mathDomainError : Except PyErr EvalVal := .error (.valueError "math domain error")

/-- The coercion a `math` function applies to a real-number argument
(`__float__`): ints and bools widen, complex and non-numbers fail. -/
def EvalVal.toFloatArg : EvalVal → Option PyFloat
| .intV n => some (.finite (n : ℝ))
| .boolV b => some (.finite (if b then 1 else 0))
| .floatV x => some x
| _ => none

/-- An exact-integer argument (`__index__`): ints and bools only. -/
def EvalVal.toIntArg : EvalVal → Option ℤ
| .intV n => some n
| .boolV b => some (if b then 1 else 0)
| _ => none

/-- Apply a one-real-argument function: arity check, then `__float__`
coercion, then the body. -/
noncomputable def float1 (fname : String) (args : List EvalVal)
    (k : PyFloat → Except PyErr EvalVal) : Except PyErr EvalVal :=
match args with
| [v] =>
  match v.toFloatArg with
  | some x => k x
  | none => .error (.typeError ("must be real number, not " ++ v.typeName))
| _ => .error (.typeError (fname ++ "() takes exactly one argument"))

/-- Apply a two-real-argument function. -/
noncomputable def float2 (fname : String) (args : List EvalVal)
    (k : PyFloat → PyFloat → Except PyErr EvalVal) : Except PyErr EvalVal :=
match args with
| [v, w] =>
  match v.toFloatArg, w.toFloatArg with
  | some x, some y => k x y
  | some _, none => .error (.typeError ("must be real number, not " ++ w.typeName))
  | _, _ => .error (.typeError ("must be real number, not " ++ v.typeName))
| _ => .error (.typeError (fname ++ "() takes exactly 2 arguments"))

/-- A total real function lifted to floats, with the indicated results
at the infinities (`none` meaning a domain error there).  NaN maps to
NaN, as every `math` function does. -/
noncomputable def liftTotal (fname : String) (g : ℝ → ℝ)
    (atPosInf atNegInf : Option PyFloat) (args : List EvalVal) : Except PyErr EvalVal :=
float1 fname args fun
| .finite x => okF (g x)
| .nan => .ok (.floatV .nan)
| .inf s =>
  match if s then atNegInf else atPosInf with
  | some r => .ok (.floatV r)
  | none => mathDomainError

/-- A real function on a decidable domain, rejecting the infinities. -/
noncomputable def liftDom (fname : String) (dom : ℝ → Prop) [DecidablePred dom]
    (g : ℝ → ℝ) (args : List EvalVal) : Except PyErr EvalVal :=
float1 fname args fun
| .finite x => if dom x then okF (g x) else mathDomainError
| .nan => .ok (.floatV .nan)
| .inf _ => mathDomainError

/-- Truncation toward zero. -/
noncomputable def rTrunc (x : ℝ) : ℤ := if 0 ≤ x then ⌊x⌋ else -⌊-x⌋

/-- Round-half-to-even to an integer, the rounding `round` uses. -/
noncomputable def roundHalfEven (x : ℝ) : ℤ :=
if x - ⌊x⌋ < 1 / 2 then ⌊x⌋
else if (1 : ℝ) / 2 < x - ⌊x⌋ then ⌊x⌋ + 1
else if Even ⌊x⌋ then ⌊x⌋ else ⌊x⌋ + 1

/-- Rich comparison `a < b` as the builtins `min`/`max` invoke it:
exact on int pairs, through the float model otherwise; complex and
mixed non-numeric pairs are unordered. -/
noncomputable def pyLtVal (a b : EvalVal) : Except PyErr Bool :=
match a, b with
| .intV m, .intV n => .ok (decide (m < n))
| .strV s, .strV t => .ok (decide (s < t))
| a, b =>
  match toNum a, toNum b with
  | some (.c _ _), _ => .error (.typeError ("'<' not supported between instances of '"
      ++ a.typeName ++ "' and '" ++ b.typeName ++ "'"))
  | _, some (.c _ _) => .error (.typeError ("'<' not supported between instances of '"
      ++ a.typeName ++ "' and '" ++ b.typeName ++ "'"))
  | some x, some y => .ok (fLt (numFloat x) (numFloat y))
  | _, _ => .error (.typeError ("'<' not supported between instances of '"
      ++ a.typeName ++ "' and '" ++ b.typeName ++ "'"))

/-- `max` iteration: `for y in rest: if y > best: best = y`. -/
noncomputable def pyMaxFold (best : EvalVal) : List EvalVal → Except PyErr EvalVal
| [] => .ok best
| y :: ys => do
  let gt ← pyLtVal best y
  pyMaxFold (if gt then y else best) ys

/-- `min` iteration: `for y in rest: if y < best: best = y`. -/
noncomputable def pyMinFold (best : EvalVal) : List EvalVal → Except PyErr EvalVal
| [] => .ok best
| y :: ys => do
  let lt ← pyLtVal y best
  pyMinFold (if lt then y else best) ys

/-- The builtin `max`: with one argument it iterates the argument (only
tuples are iterable among our values besides strings, which are folded
over their characters); with several it folds over them. -/
noncomputable def pyMax : List EvalVal → Except PyErr EvalVal
| [] => .error (.typeError "max expected at least 1 argument, got 0")
| [.tupleV []] => .error (.valueError "max() arg is an empty sequence")
| [.tupleV (e :: es)] => pyMaxFold e es
| [.strV s] =>
  match s.toList with
  | [] => .error (.valueError "max() arg is an empty sequence")
  | c :: cs => .ok (.strV (String.mk [cs.foldl (fun b d => if b < d then d else b) c]))
| [x] => .error (.typeError ("'" ++ x.typeName ++ "' object is not iterable"))
| x :: rest => pyMaxFold x rest

/-- The builtin `min`, symmetrically. -/
noncomputable def pyMin : List EvalVal → Except PyErr EvalVal
| [] => .error (.typeError "min expected at least 1 argument, got 0")
| [.tupleV []] => .error (.valueError "min() arg is an empty sequence")
| [.tupleV (e :: es)] => pyMinFold e es
| [.strV s] =>
  match s.toList with
  | [] => .error (.valueError "min() arg is an empty sequence")
  | c :: cs => .ok (.strV (String.mk [cs.foldl (fun b d => if d < b then d else b) c]))
| [x] => .error (.typeError ("'" ++ x.typeName ++ "' object is not iterable"))
| x :: rest => pyMinFold x rest

/-- The builtin `abs`: exact on ints, magnitude on floats and complex. -/
noncomputable def pyAbs : List EvalVal → Except PyErr EvalVal
| [.intV n] => okI |n|
| [.boolV b] => okI (if b then 1 else 0)
| [.floatV x] => .ok (.floatV (fAbs x))
| [.complexV (.finite a) (.finite b)] => okF (Real.sqrt (a ^ 2 + b ^ 2))
| [.complexV _ _] => .ok (.floatV .nan)
| [x] => .error (.typeError ("bad operand type for abs(): '" ++ x.typeName ++ "'"))
| _ => .error (.typeError "abs() takes exactly one argument")

/-- The builtin `round`: ints pass through; a finite float rounds
half-to-even (to an int with one argument, to `ndigits` decimal places
with two); NaN and the infinities cannot convert to int. -/
noncomputable def pyRound : List EvalVal → Except PyErr EvalVal
| [.intV n] => okI n
| [.boolV b] => okI (if b then 1 else 0)
| [.floatV (.finite x)] => okI (roundHalfEven x)
| [.floatV .nan] => .error (.valueError "cannot convert float NaN to integer")
| [.floatV (.inf _)] => .error (.overflowError "cannot convert float infinity to integer")
| [.floatV (.finite x), .intV n] => okF ((roundHalfEven (x * 10 ^ (n : ℤ)) : ℝ) / 10 ^ (n : ℤ))
| [.floatV .nan, .intV _] => .ok (.floatV .nan)
| [.floatV (.inf s), .intV _] => .ok (.floatV (.inf s))
| [.intV m, .intV n] =>
  if 0 ≤ n then okI m
  else okI (roundHalfEven ((m : ℝ) / 10 ^ (-n).toNat) * 10 ^ (-n).toNat)
| [x] => .error (.typeError ("type " ++ x.typeName ++ " doesn't define __round__ method"))
| _ => .error (.typeError "round() unexpected arguments")

/-- The error function, `(2/√π)·∫₀ˣ exp(−t²) dt`. -/
noncomputable def erfR (x : ℝ) : ℝ :=
(2 / Real.sqrt Real.pi) * ∫ t in (0 : ℝ)..x, Real.exp (-t ^ 2)

/-- `math.log`-shaped functions: positive finite domain, `+∞ ↦ +∞`. -/
noncomputable def logLike (fname : String) (g : ℝ → ℝ) (args : List EvalVal) : Except PyErr EvalVal :=
float1 fname args fun
| .finite x => if 0 < x then okF (g x) else mathDomainError
| .nan => .ok (.floatV .nan)
| .inf s => if s then mathDomainError else .ok (.floatV (.inf false))

/-- `math.floor`/`ceil`/`trunc`-shaped functions: an integer result,
with the infinities and NaN unconvertible. -/
noncomputable def intLike (g : ℝ → ℤ) (args : List EvalVal) : Except PyErr EvalVal :=
match args with
| [v] =>
  match v.toFloatArg with
  | some (.finite x) => okI (g x)
  | some (.inf _) => .error (.overflowError "cannot convert float infinity to integer")
  | some .nan => .error (.valueError "cannot convert float NaN to integer")
  | none => .error (.typeError ("must be real number, not " ++ v.typeName))
| _ => .error (.typeError "expected exactly one argument")

/-- Gamma-function pole test: a nonpositive integral real. -/
noncomputable def gammaPole (x : ℝ) : Prop := x ≤ 0 ∧ (⌊x⌋ : ℝ) = x

noncomputable instance : DecidablePred gammaPole := fun x =>
inferInstanceAs (Decidable (x ≤ 0 ∧ (⌊x⌋ : ℝ) = x))

/-- `math.pow`: always through floats, never complex — a negative base
with a non-integral exponent is a domain error, as is `0` to a negative
power. -/
noncomputable def mathPow (args : List EvalVal) : Except PyErr EvalVal :=
float2 "pow" args fun x y =>
match x, y with
| .finite a, .finite b =>
  if a = 1 ∨ b = 0 then okF 1
  else if 0 < a then okF (Real.rpow a b)
  else if a = 0 then
    if 0 < b then okF 0 else mathDomainError
  else if (⌊b⌋ : ℝ) = b then
    okF (if Even ⌊b⌋ then Real.rpow (-a) b else -Real.rpow (-a) b)
  else mathDomainError
| .nan, .finite b => if b = 0 then okF 1 else .ok (.floatV .nan)
| .finite a, .nan => if a = 1 then okF 1 else .ok (.floatV .nan)
| .nan, .nan => .ok (.floatV .nan)
| .inf s, y =>
  if fLt (.finite 0) y then .ok (.floatV (.inf s))
  else if fLt y (.finite 0) then okF 0
  else .ok (.floatV .nan)
| x, .inf t =>
  if fLt (.finite 1) (fAbs x) then .ok (.floatV (if t then .finite 0 else .inf false))
  else if fLt (fAbs x) (.finite 1) then .ok (.floatV (if t then .inf false else .finite 0))
  else okF 1

/-- Fold for `math.fsum` over a tuple of reals. -/
noncomputable def fsumFold (acc : PyFloat) : List EvalVal → Except PyErr EvalVal
| [] => .ok (.floatV acc)
| v :: rest =>
  match v.toFloatArg with
  | some x => fsumFold (fAdd acc x) rest
  | none => .error (.typeError ("must be real number, not " ++ v.typeName))

/-- Fold for `math.prod` over a tuple of numbers. -/
noncomputable def prodFold (acc : EvalVal) : List EvalVal → Except PyErr EvalVal
| [] => .ok acc
| v :: rest => do
  let acc' ← pyBinOp .mult acc v
  prodFold acc' rest

/-- Fold for `math.gcd`/`math.lcm` over exact-integer arguments. -/
def intFold (g : ℤ → ℤ → ℤ) (acc : ℤ) : List EvalVal → Except PyErr EvalVal
| [] => okI acc
| v :: rest =>
  match v.toIntArg with
  | some n => intFold g (g acc n) rest
  | none => .error (.typeError ("'" ++ v.typeName ++ "' object cannot be interpreted as an integer"))

/-- `math.dist` over two equal-length tuples of reals; any special
value collapses the result to NaN at this granularity. -/
noncomputable def distSquares : List PyFloat → List PyFloat → Option ℝ
| [], [] => some 0
| .finite a :: ps, .finite b :: qs =>
  match distSquares ps qs with
  | some s => some ((a - b) ^ 2 + s)
  | none => none
| _ :: ps, _ :: qs => match distSquares ps qs with | some _ => none | none => none
| _, _ => none

/-- Sequence the `__float__` coercion over a tuple's elements. -/
def toFloatList : List EvalVal → Option (List PyFloat)
| [] => some []
| v :: rest =>
  match v.toFloatArg, toFloatList rest with
  | some x, some xs => some (x :: xs)
  | _, _ => none

/-- The behaviour of every function object in the default name table:
the public `math` functions at real-number granularity and the builtins
`abs`, `round`, `min`, `max`.  Names outside the table are never
applied by a certified tree; they are modelled as a `TypeError`. -/
noncomputable def defaultImpl : FuncImpl := fun fname args =>
match fname with
| "abs" => pyAbs args
| "round" => pyRound args
| "min" => pyMin args
| "max" => pyMax args
| "acos" => liftDom "acos" (fun x => -1 ≤ x ∧ x ≤ 1) Real.arccos args
| "acosh" => liftDom "acosh" (fun x => 1 ≤ x) (fun x => Real.log (x + Real.sqrt (x ^ 2 - 1))) args
| "asin" => liftDom "asin" (fun x => -1 ≤ x ∧ x ≤ 1) Real.arcsin args
| "asinh" => liftTotal "asinh" Real.arsinh (some (.inf false)) (some (.inf true)) args
| "atan" => liftTotal "atan" Real.arctan (some (.finite (Real.pi / 2))) (some (.finite (-(Real.pi / 2)))) args
| "atan2" => float2 "atan2" args fun y x =>
    match y, x with
    | .finite b, .finite a => okF ((Complex.mk a b).arg)
    | _, _ => .ok (.floatV .nan)
| "atanh" => liftDom "atanh" (fun x => -1 < x ∧ x < 1) (fun x => Real.log ((1 + x) / (1 - x)) / 2) args
| "cbrt" => liftTotal "cbrt"
    (fun x => if 0 ≤ x then Real.rpow x (1 / 3) else -Real.rpow (-x) (1 / 3))
    (some (.inf false)) (some (.inf true)) args
| "ceil" => intLike (fun x => ⌈x⌉) args
| "comb" =>
  match args with
  | [v, w] =>
    match v.toIntArg, w.toIntArg with
    | some n, some k =>
      if n < 0 ∨ k < 0 then .error (.valueError "values must be non-negative")
      else okI (Nat.choose n.toNat k.toNat)
    | _, _ => .error (.typeError "'float' object cannot be interpreted as an integer")
  | _ => .error (.typeError "comb() takes exactly 2 arguments")
| "copysign" => float2 "copysign" args fun x y =>
    match y with
    | .finite b => .ok (.floatV (if b < 0 then fNeg (fAbs x) else fAbs x))
    | .inf s => .ok (.floatV (if s then fNeg (fAbs x) else fAbs x))
    | .nan => .ok (.floatV (fAbs x))
| "cos" => liftDom "cos" (fun _ => True) Real.cos args
| "cosh" => liftTotal "cosh" Real.cosh (some (.inf false)) (some (.inf false)) args
| "degrees" => liftTotal "degrees" (fun x => x * 180 / Real.pi) (some (.inf false)) (some (.inf true)) args
| "dist" =>
  match args with
  | [.tupleV p, .tupleV q] =>
    match toFloatList p, toFloatList q with
    | some ps, some qs =>
      if ps.length = qs.length then
        match distSquares ps qs with
        | some s => okF (Real.sqrt s)
        | none => .ok (.floatV .nan)
      else .error (.valueError "both points must have the same number of dimensions")
    | _, _ => .error (.typeError "dist() coordinates must be real numbers")
  | _ => .error (.typeError "dist() takes two iterables of coordinates")
| "erf" => liftTotal "erf" erfR (some (.finite 1)) (some (.finite (-1))) args
| "erfc" => liftTotal "erfc" (fun x => 1 - erfR x) (some (.finite 0)) (some (.finite 2)) args
| "exp" => liftTotal "exp" Real.exp (some (.inf false)) (some (.finite 0)) args
| "exp2" => liftTotal "exp2" (fun x => Real.rpow 2 x) (some (.inf false)) (some (.finite 0)) args
| "expm1" => liftTotal "expm1" (fun x => Real.exp x - 1) (some (.inf false)) (some (.finite (-1))) args
| "fabs" => float1 "fabs" args fun x => .ok (.floatV (fAbs x))
| "factorial" =>
  match args with
  | [v] =>
    match v.toIntArg with
    | some n =>
      if n < 0 then .error (.valueError "factorial() not defined for negative values")
      else okI (Nat.factorial n.toNat)
    | none => .error (.typeError "'float' object cannot be interpreted as an integer")
  | _ => .error (.typeError "factorial() takes exactly one argument")
| "floor" => intLike (fun x => ⌊x⌋) args
| "fmod" => float2 "fmod" args fun x y =>
    match x, y with
    | _, .nan => .ok (.floatV .nan)
    | .nan, _ => .ok (.floatV .nan)
    | .finite a, .finite b =>
      if b = 0 then mathDomainError
      else okF (a - b * (rTrunc (a / b) : ℝ))
    | .finite a, .inf _ => okF a
    | .inf _, _ => mathDomainError
| "frexp" => float1 "frexp" args fun
    | .finite x =>
      if x = 0 then .ok (.tupleV [.floatV (.finite 0), .intV 0])
      else .ok (.tupleV [.floatV (.finite (x / 2 ^ (⌊Real.logb 2 |x|⌋ + 1 : ℤ))),
                         .intV (⌊Real.logb 2 |x|⌋ + 1)])
    | .inf s => .ok (.tupleV [.floatV (.inf s), .intV 0])
    | .nan => .ok (.tupleV [.floatV .nan, .intV 0])
| "fsum" =>
  match args with
  | [.tupleV l] => fsumFold (.finite 0) l
  | [x] => .error (.typeError ("'" ++ x.typeName ++ "' object is not iterable"))
  | _ => .error (.typeError "fsum() takes exactly one argument")
| "gamma" => float1 "gamma" args fun
    | .finite x => if gammaPole x then mathDomainError else okF (Real.Gamma x)
    | .inf s => if s then mathDomainError else .ok (.floatV (.inf false))
    | .nan => .ok (.floatV .nan)
| "gcd" => intFold (fun a b => (Int.gcd a b : ℤ)) 0 args
| "hypot" =>
  match toFloatList args with
  | some xs =>
    if xs.any (fun x => match x with | .inf _ => true | _ => false) then .ok (.floatV (.inf false))
    else if xs.any (fun x => match x with | .nan => true | _ => false) then .ok (.floatV .nan)
    else okF (Real.sqrt ((xs.map (fun x => match x with | .finite v => v ^ 2 | _ => 0)).sum))
  | none => .error (.typeError "hypot() coordinates must be real numbers")
| "isclose" => float2 "isclose" args fun x y =>
    match x, y with
    | .finite a, .finite b =>
      .ok (.boolV (decide (|a - b| ≤ 1 / 1000000000 * max |a| |b|)))
    | .inf s, .inf t => .ok (.boolV (s == t))
    | _, _ => .ok (.boolV false)
| "isfinite" => float1 "isfinite" args fun
    | .finite _ => .ok (.boolV true)
    | _ => .ok (.boolV false)
| "isinf" => float1 "isinf" args fun
    | .inf _ => .ok (.boolV true)
    | _ => .ok (.boolV false)
| "isnan" => float1 "isnan" args fun
    | .nan => .ok (.boolV true)
    | _ => .ok (.boolV false)
| "isqrt" =>
  match args with
  | [v] =>
    match v.toIntArg with
    | some n =>
      if n < 0 then .error (.valueError "isqrt() argument must be nonnegative")
      else okI (Nat.sqrt n.toNat)
    | none => .error (.typeError "'float' object cannot be interpreted as an integer")
  | _ => .error (.typeError "isqrt() takes exactly one argument")
| "lcm" => intFold (fun a b => (Int.lcm a b : ℤ)) 1 args
| "ldexp" =>
  match args with
  | [v, w] =>
    match v.toFloatArg, w.toIntArg with
    | some (.finite x), some i => okF (x * 2 ^ (i : ℤ))
    | some x, some _ => .ok (.floatV x)
    | some _, none => .error (.typeError "Expected an int as second argument to ldexp.")
    | none, _ => .error (.typeError ("must be real number, not " ++ v.typeName))
  | _ => .error (.typeError "ldexp() takes exactly 2 arguments")
| "lgamma" => float1 "lgamma" args fun
    | .finite x => if gammaPole x then mathDomainError else okF (Real.log |Real.Gamma x|)
    | .inf _ => .ok (.floatV (.inf false))
    | .nan => .ok (.floatV .nan)
| "log" =>
  match args with
  | [_] => logLike "log" Real.log args
  | [v, w] =>
    match v.toFloatArg, w.toFloatArg with
    | some (.finite x), some (.finite b) =>
      if 0 < x ∧ 0 < b then okF (Real.log x / Real.log b) else mathDomainError
    | some _, some _ => .ok (.floatV .nan)
    | some _, none => .error (.typeError ("must be real number, not " ++ w.typeName))
    | none, _ => .error (.typeError ("must be real number, not " ++ v.typeName))
  | _ => .error (.typeError "log() takes at most 2 arguments")
| "log10" => logLike "log10" (Real.logb 10) args
| "log1p" => liftDom "log1p" (fun x => -1 < x) (fun x => Real.log (1 + x)) args
| "log2" => logLike "log2" (Real.logb 2) args
| "modf" => float1 "modf" args fun
    | .finite x => .ok (.tupleV [.floatV (.finite (x - (rTrunc x : ℝ))), .floatV (.finite (rTrunc x : ℝ))])
    | .inf s => .ok (.tupleV [.floatV (.finite 0), .floatV (.inf s)])
    | .nan => .ok (.tupleV [.floatV .nan, .floatV .nan])
| "nextafter" => float2 "nextafter" args fun x y =>
    match x, y with
    | .finite a, .finite b => if a = b then okF b else okF a
    | .nan, _ => .ok (.floatV .nan)
    | _, .nan => .ok (.floatV .nan)
    | x, _ => .ok (.floatV x)
| "perm" =>
  match args with
  | [v] =>
    match v.toIntArg with
    | some n =>
      if n < 0 then .error (.valueError "values must be non-negative")
      else okI (Nat.factorial n.toNat)
    | none => .error (.typeError "'float' object cannot be interpreted as an integer")
  | [v, w] =>
    match v.toIntArg, w.toIntArg with
    | some n, some k =>
      if n < 0 ∨ k < 0 then .error (.valueError "values must be non-negative")
      else okI (Nat.descFactorial n.toNat k.toNat)
    | _, _ => .error (.typeError "'float' object cannot be interpreted as an integer")
  | _ => .error (.typeError "perm() takes 1 or 2 arguments")
| "pow" => mathPow args
| "prod" =>
  match args with
  | [.tupleV l] => prodFold (.intV 1) l
  | [x] => .error (.typeError ("'" ++ x.typeName ++ "' object is not iterable"))
  | _ => .error (.typeError "prod() takes exactly one argument")
| "radians" => liftTotal "radians" (fun x => x * Real.pi / 180) (some (.inf false)) (some (.inf true)) args
| "remainder" => float2 "remainder" args fun x y =>
    match x, y with
    | _, .nan => .ok (.floatV .nan)
    | .nan, _ => .ok (.floatV .nan)
    | .finite a, .finite b =>
      if b = 0 then mathDomainError
      else okF (a - b * (roundHalfEven (a / b) : ℝ))
    | .finite a, .inf _ => okF a
    | .inf _, _ => mathDomainError
| "sin" => liftDom "sin" (fun _ => True) Real.sin args
| "sinh" => liftTotal "sinh" Real.sinh (some (.inf false)) (some (.inf true)) args
| "sqrt" => float1 "sqrt" args fun
    | .finite x => if 0 ≤ x then okF (Real.sqrt x) else mathDomainError
    | .inf s => if s then mathDomainError else .ok (.floatV (.inf false))
    | .nan => .ok (.floatV .nan)
| "tan" => liftDom "tan" (fun _ => True) Real.tan args
| "tanh" => liftTotal "tanh" Real.tanh (some (.finite 1)) (some (.finite (-1))) args
| "trunc" => intLike rTrunc args
| "ulp" => float1 "ulp" args fun
    | .finite _ => okF 0
    | .inf _ => .ok (.floatV (.inf false))
    | .nan => .ok (.floatV .nan)
| f => .error (.typeError ("function '" ++ f ++ "' is not modelled"))

/-- `dir(math)` on the host runtime (CPython 3.11): the module's
attribute names in sorted order, dunders first. -/
def mathDirList : List String :=
["__doc__", "__loader__", "__name__", "__package__", "__spec__",
 "acos", "acosh", "asin", "asinh", "atan", "atan2", "atanh", "cbrt",
 "ceil", "comb", "copysign", "cos", "cosh", "degrees", "dist", "e",
 "erf", "erfc", "exp", "exp2", "expm1", "fabs", "factorial", "floor",
 "fmod", "frexp", "fsum", "gamma", "gcd", "hypot", "inf", "isclose",
 "isfinite", "isinf", "isnan", "isqrt", "lcm", "ldexp", "lgamma",
 "log", "log10", "log1p", "log2", "modf", "nan", "nextafter", "perm",
 "pi", "pow", "prod", "radians", "remainder", "sin", "sinh", "sqrt",
 "tan", "tanh", "tau", "trunc", "ulp"]

/-- `getattr(math, k)` for the public names: five float constants, and
function objects for everything else. -/
noncomputable def mathAttrVal (k : String) : EvalVal :=
match k with
| "e" => .floatV (.finite (Real.exp 1))
| "inf" => .floatV (.inf false)
| "nan" => .floatV .nan
| "pi" => .floatV (.finite Real.pi)
| "tau" => .floatV (.finite (2 * Real.pi))
| f => .funcV f

/-- The four builtins added by `build_safe_names`; their keys are
disjoint from the public `math` names, so `dict.update` only appends. -/
def builtinPairs : List (String × EvalVal) :=
[("abs", .funcV "abs"), ("round", .funcV "round"),
 ("min", .funcV "min"), ("max", .funcV "max")]

/-- `k.startswith("_")` for the one-character argument `"_"`: whether
the first character is an underscore. -/
def startsWithUnderscore (k : String) : Bool :=
match k.data with
| c :: _ => c == '_'
| [] => false

/-- `build_safe_names()`: the comprehension
`{k: getattr(math, k) for k in dir(math) if not k.startswith("_")}`
followed by `names.update({'abs': abs, 'round': round, 'min': min,
'max': max})`.  Since no builtin key occurs among the public `math`
names, the update appends the four pairs. -/
noncomputable def build_safe_names : NameTable :=
(mathDirList.filter (fun k => !startsWithUnderscore k)).map (fun k => (k, mathAttrVal k))
  ++ builtinPairs

/-! ## Predicates for the claims -/

/-- Node kinds outside the whitelist `{Expression, BinOp, UnaryOp,
Call, Name, Load, Constant, Num}`: every kind without a dedicated
`visit_` method (`visit_Attribute` always rejects, so `Attribute`
counts as disallowed too). -/
def isDisallowedKind : Expr → Bool
| .binOp _ _ _ => false
| .unaryOp _ _ => false
| .call _ _ _ => false
| .name _ => false
| .constant _ => false
| _ => true

/-- The rejection reason the validator produces on a disallowed node:
`visit_Attribute`'s fixed message, or `generic_visit`'s message naming
the node's class. -/
def disallowedMsg : Expr → String
| .attribute _ _ => "Attribute access is not allowed"
| e => "Node type " ++ e.className ++ " not allowed"

mutual

/-- Whether a disallowed node kind occurs anywhere in the tree. -/
def containsDisallowed : Expr → Bool
| .binOp _ l r => containsDisallowed l || containsDisallowed r
| .unaryOp _ o => containsDisallowed o
| .call f args kws =>
  containsDisallowed f || containsDisallowedList args || containsDisallowedKw kws
| .name _ => false
| .constant _ => false
| _ => true
termination_by structural e => e

/-- `containsDisallowed` over a node list. -/
def containsDisallowedList : List Expr → Bool
| [] => false
| a :: rest => containsDisallowed a || containsDisallowedList rest
termination_by structural l => l

/-- `containsDisallowed` over keyword-argument values. -/
def containsDisallowedKw : List (String × Expr) → Bool
| [] => false
| (_, v) :: rest => containsDisallowed v || containsDisallowedKw rest
termination_by structural l => l

end

/-- A numeric scalar in Python's sense: an instance of `int` (hence
also `bool`), `float` or `complex`. -/
def isScalar : EvalVal → Bool
| .intV _ => true
| .boolV _ => true
| .floatV _ => true
| .complexV _ _ => true
| _ => false

/-- A function object. -/
def isFuncVal : EvalVal → Bool
| .funcV _ => true
| _ => false

/-- A numeric scalar or a function object — the kinds of value a
whitelist-style name table holds. -/
def ScalarOrFunc (v : EvalVal) : Bool := isScalar v || isFuncVal v

/-- The public names of the `math` module. -/
def publicMathNames : List String :=
mathDirList.filter (fun k => !startsWithUnderscore k)

/-! ## Concrete parse trees

Each is the `ast.parse(·, mode='eval')` result of the literal
expression named in its doc comment. -/

/-- The `pi/2` subtree of `"2 + 2 * sin(pi/2)"`. -/
def piOver2E : Expr := .binOp .div (.name "pi") (.constant (.intC 2))

/-- The `sin(pi/2)` subtree of `"2 + 2 * sin(pi/2)"`. -/
def sinCallE : Expr := .call (.name "sin") [piOver2E] []

/-- `ast.parse("2 + 2 * sin(pi/2)", mode='eval')`. -/
def sinTree : Expression :=
⟨.binOp .add (.constant (.intC 2)) (.binOp .mult (.constant (.intC 2)) sinCallE)⟩

/-- `ast.parse("max(1, 2, 3)", mode='eval')`. -/
def maxTree : Expression :=
⟨.call (.name "max")
  [.constant (.intC 1), .constant (.intC 2), .constant (.intC 3)] []⟩

/-- `ast.parse("1/0", mode='eval')`. -/
def divZeroTree : Expression :=
⟨.binOp .div (.constant (.intC 1)) (.constant (.intC 0))⟩

/-- `ast.parse("pi(1)", mode='eval')`. -/
def piCallTree : Expression :=
⟨.call (.name "pi") [.constant (.intC 1)] []⟩

/-- `ast.parse("f(1)", mode='eval')`. -/
def fCallTree : Expression :=
⟨.call (.name "f") [.constant (.intC 1)] []⟩

/-- `ast.parse("round(3.14159, ndigits=2)", mode='eval')`. -/
def roundKwTree : Expression :=
⟨.call (.name "round") [.constant (.floatC (314159 / 100000))]
  [("ndigits", .constant (.intC 2))]⟩

/-- `ast.parse("2 @ 3", mode='eval')`. -/
def matMultTree : Expression :=
⟨.binOp .matMult (.constant (.intC 2)) (.constant (.intC 3))⟩

/-! ## Helper lemmas -/

theorem except_bind_ok {ε α β : Type} (e : Except ε α) (k : α → Except ε β) (v : β) :
    Except.bind e k = .ok v ↔ ∃ x, e = .ok x ∧ k x = .ok v := by
  cases e with
  | error m => simp [Except.bind]
  | ok x => simp [Except.bind]

theorem visit_binOp_iff (names : NameTable) (op : BinOpK) (l r : Expr) :
    visitE names (.binOp op l r) = .ok () ↔
      op ∈ ALLOWED_BINOPS ∧ visitE names l = .ok () ∧ visitE names r = .ok () := by
  by_cases hop : op ∈ ALLOWED_BINOPS
  · show (if op ∈ ALLOWED_BINOPS then _ else _) = Except.ok () ↔ _
    rw [if_pos hop]
    show Except.bind (visitE names l) (fun _ => visitE names r) = .ok () ↔ _
    rw [except_bind_ok]
    simp only [hop, true_and]
    exact ⟨fun ⟨u, hl, hr⟩ => by cases u; exact ⟨hl, hr⟩, fun ⟨hl, hr⟩ => ⟨(), hl, hr⟩⟩
  · show (if op ∈ ALLOWED_BINOPS then _ else _) = Except.ok () ↔ _
    rw [if_neg hop]
    simp [hop]

theorem visit_unaryOp_iff (names : NameTable) (op : UnaryOpK) (o : Expr) :
    visitE names (.unaryOp op o) = .ok () ↔
      op ∈ ALLOWED_UNARYOPS ∧ visitE names o = .ok () := by
  by_cases hop : op ∈ ALLOWED_UNARYOPS
  · show (if op ∈ ALLOWED_UNARYOPS then _ else _) = Except.ok () ↔ _
    rw [if_pos hop]
    simp [hop]
  · show (if op ∈ ALLOWED_UNARYOPS then _ else _) = Except.ok () ↔ _
    rw [if_neg hop]
    simp [hop]

theorem exists_error_iff (e : Except String Unit) :
    (∃ m, e = .error m) ↔ ¬ e = .ok () := by
  cases e with
  | error m => simp
  | ok u => cases u; simp

theorem visit_call_name_iff (names : NameTable) (fid : String) (args : List Expr)
    (kws : List (String × Expr)) :
    visitE names (.call (.name fid) args kws) = .ok () ↔
      (names.lookup fid).isSome = true ∧ kws = [] ∧ visitArgs names args = .ok () := by
  by_cases hs : (names.lookup fid).isSome = true
  · show (if (names.lookup fid).isSome = true then _ else _) = Except.ok () ↔ _
    rw [if_pos hs]
    by_cases hk : kws.isEmpty
    · rw [if_pos hk]
      simp [hs, List.isEmpty_iff.mp hk]
    · rw [if_neg hk]
      simp only [List.isEmpty_iff] at hk
      simp [hs, hk]
  · show (if (names.lookup fid).isSome = true then _ else _) = Except.ok () ↔ _
    rw [if_neg hs]
    simp [hs]

theorem visit_call_nonname (names : NameTable) (f : Expr) (args : List Expr)
    (kws : List (String × Expr)) (hf : ∀ fid, f ≠ .name fid) :
    visitE names (.call f args kws) = .error "Only direct function calls are allowed" := by
  cases f
  case name fid => exact absurd rfl (hf fid)
  all_goals rfl

theorem visit_call_missing (names : NameTable) (fid : String) (args : List Expr)
    (kws : List (String × Expr)) (h : (names.lookup fid).isSome = false) :
    visitE names (.call (.name fid) args kws) =
      .error ("Function '" ++ fid ++ "' is not allowed") := by
  show (if (names.lookup fid).isSome = true then _ else _) = _
  rw [if_neg (by simp [h])]

theorem visit_call_keyword (names : NameTable) (fid : String) (args : List Expr)
    (kw : String × Expr) (kws : List (String × Expr))
    (h : (names.lookup fid).isSome = true) :
    visitE names (.call (.name fid) args (kw :: kws)) =
      .error "Keyword arguments are not allowed" := by
  show (if (names.lookup fid).isSome = true then _ else _) = _
  rw [if_pos h]
  rfl

theorem visit_call_iff (names : NameTable) (f : Expr) (args : List Expr)
    (kws : List (String × Expr)) :
    visitE names (.call f args kws) = .ok () ↔
      ∃ fid, f = .name fid ∧ (names.lookup fid).isSome = true ∧ kws = [] ∧
        visitArgs names args = .ok () := by
  cases f
  case name fid => simp [visit_call_name_iff]
  all_goals
    rw [visit_call_nonname names _ args kws (fun _ h => Expr.noConfusion h)]
  all_goals simp

theorem visitArgs_ok_iff (names : NameTable) :
    ∀ args : List Expr, visitArgs names args = .ok () ↔
      ∀ a ∈ args, visitE names a = .ok () := by
  intro args
  induction args with
  | nil => simp [visitArgs]
  | cons a rest ih =>
    show Except.bind (visitE names a) (fun _ => visitArgs names rest) = .ok () ↔ _
    rw [except_bind_ok]
    constructor
    · rintro ⟨u, ha, hrest⟩
      cases u
      intro b hb
      rcases List.mem_cons.mp hb with hb | hb
      · exact hb ▸ ha
      · exact (ih.mp hrest) b hb
    · intro h
      exact ⟨(), h a (by simp), ih.mpr (fun b hb => h b (by simp [hb]))⟩

theorem containsList_iff :
    ∀ l : List Expr, containsDisallowedList l = true ↔
      ∃ a ∈ l, containsDisallowed a = true := by
  intro l
  induction l with
  | nil => simp [containsDisallowedList]
  | cons a rest ih => simp [containsDisallowedList, ih]

theorem contains_reject_aux (names : NameTable) :
    ∀ (n : ℕ) (e : Expr), sizeOf e ≤ n → containsDisallowed e = true →
      ¬ visitE names e = .ok () := by
  intro n
  induction n with
  | zero =>
    intro e he _ _
    cases e <;> simp at he
  | succ n ih =>
    intro e he hc hok
    cases e
    case binOp op l r =>
      rw [visit_binOp_iff] at hok
      obtain ⟨_, hl, hr⟩ := hok
      have hsl : sizeOf l ≤ n := by simp at he; omega
      have hsr : sizeOf r ≤ n := by simp at he; omega
      simp only [containsDisallowed, Bool.or_eq_true] at hc
      cases hc with
      | inl h => exact ih l hsl h hl
      | inr h => exact ih r hsr h hr
    case unaryOp op o =>
      rw [visit_unaryOp_iff] at hok
      obtain ⟨_, ho⟩ := hok
      have hso : sizeOf o ≤ n := by simp at he; omega
      simp only [containsDisallowed] at hc
      exact ih o hso hc ho
    case call f args kws =>
      rw [visit_call_iff] at hok
      obtain ⟨fid, hf, _, hkw, hargs⟩ := hok
      subst hf
      subst hkw
      simp only [containsDisallowed, containsDisallowedKw, Bool.or_eq_true] at hc
      have hlist : containsDisallowedList args = true := by
        rcases hc with (h | h) | h
        · simp [containsDisallowed] at h
        · exact h
        · exact absurd h (by simp)
      rcases (containsList_iff args).mp hlist with ⟨a, ha, hca⟩
      have hsa : sizeOf a ≤ n := by
        have h1 : sizeOf a < sizeOf args := List.sizeOf_lt_of_mem ha
        simp at he
        omega
      exact ih a hsa hca ((visitArgs_ok_iff names args).mp hargs a ha)
    case name id => simp [containsDisallowed] at hc
    case constant c => simp [containsDisallowed] at hc
    all_goals exact Except.noConfusion hok

theorem numToVal_scalar (nv : NumVal) : isScalar (numToVal nv) = true := by
  cases nv <;> rfl

theorem toNum_of_scalar {v : EvalVal} (h : isScalar v = true) :
    ∃ nv, toNum v = some nv := by
  cases v <;> simp_all [isScalar, toNum]

theorem funcV_of_toNum_none {v : EvalVal} (hs : ScalarOrFunc v = true)
    (h : toNum v = none) : ∃ f, v = .funcV f := by
  cases v <;> simp_all [ScalarOrFunc, isScalar, isFuncVal, toNum]

theorem except_map_ok {ε α β : Type} (f : α → β) (e : Except ε α) (v : β) :
    Except.map f e = .ok v ↔ ∃ x, e = .ok x ∧ v = f x := by
  cases e with
  | error m => simp [Except.map]
  | ok x => simp [Except.map, eq_comm]

theorem pyBinOp_funcV_left (op : BinOpK) (f : String) (b : EvalVal) :
    ∃ m, pyBinOp op (.funcV f) b = .error (.typeError m) := by
  cases op <;> cases b <;> simp [pyBinOp, toNum]

theorem pyBinOp_funcV_right (op : BinOpK) (a : EvalVal) (f : String)
    (ha : isScalar a = true) :
    ∃ m, pyBinOp op a (.funcV f) = .error (.typeError m) := by
  cases op <;> cases a <;> simp_all [pyBinOp, toNum, isScalar]

theorem pyBinOp_scalar {op : BinOpK} {a b r : EvalVal}
    (ha : ScalarOrFunc a = true) (hb : ScalarOrFunc b = true)
    (h : pyBinOp op a b = .ok r) : isScalar r = true := by
  cases hta : toNum a with
  | none =>
    rcases funcV_of_toNum_none ha hta with ⟨f, rfl⟩
    rcases pyBinOp_funcV_left op f b with ⟨m, hm⟩
    rw [hm] at h
    exact Except.noConfusion h
  | some x =>
    cases htb : toNum b with
    | none =>
      rcases funcV_of_toNum_none hb htb with ⟨f, rfl⟩
      have has : isScalar a = true := by
        cases a <;> simp_all [toNum, isScalar]
      rcases pyBinOp_funcV_right op a f has with ⟨m, hm⟩
      rw [hm] at h
      exact Except.noConfusion h
    | some y =>
      have : pyBinOp op a b = (numBinOp op x y).map numToVal := by
        cases a <;> cases b <;> simp_all [pyBinOp, toNum]
      rw [this, except_map_ok] at h
      rcases h with ⟨nv, _, rfl⟩
      exact numToVal_scalar nv

theorem pyUnaryOp_scalar {op : UnaryOpK} {a r : EvalVal}
    (h : pyUnaryOp op a = .ok r) : isScalar r = true := by
  cases op <;> cases a <;> simp [pyUnaryOp, toNum] at h <;> subst h <;> rfl

theorem lookup_mem {t : NameTable} {k : String} {v : EvalVal}
    (h : t.lookup k = some v) : (k, v) ∈ t := by
  induction t with
  | nil => exact Option.noConfusion h
  | cons p rest ih =>
    obtain ⟨a, w⟩ := p
    by_cases hk : k == a
    · have : some w = some v := by
        rw [← h]
        show _ = List.lookup k ((a, w) :: rest)
        simp [List.lookup, hk]
      rw [Option.some_inj] at this
      subst this
      have : k = a := by simpa using hk
      subst this
      exact List.mem_cons_self _ _
    · have : NameTable.lookup rest k = some v := by
        rw [← h]
        show _ = List.lookup k ((a, w) :: rest)
        simp [List.lookup, hk]
        rfl
      exact List.mem_cons_of_mem _ (ih this)

theorem constToVal_scalar {c : ConstVal} (h : c.isPyNumber = true) :
    isScalar (constToVal c) = true := by
  cases c <;> simp_all [ConstVal.isPyNumber, constToVal, isScalar]

theorem visit_constant_ok_iff (names : NameTable) (c : ConstVal) :
    visitE names (.constant c) = .ok () ↔ c.isPyNumber = true := by
  by_cases h : c.isPyNumber = true
  · show (if c.isPyNumber = true then _ else _) = Except.ok () ↔ _
    rw [if_pos h]
    simp [h]
  · show (if c.isPyNumber = true then _ else _) = Except.ok () ↔ _
    rw [if_neg h]
    simp [h]

theorem visit_name_ok_iff (names : NameTable) (id : String) :
    visitE names (.name id) = .ok () ↔ (names.lookup id).isSome = true := by
  by_cases h : (names.lookup id).isSome = true
  · show (if (names.lookup id).isSome = true then _ else _) = Except.ok () ↔ _
    rw [if_pos h]
    simp [h]
  · show (if (names.lookup id).isSome = true then _ else _) = Except.ok () ↔ _
    rw [if_neg h]
    simp [h]

theorem evalArgs_ok_iff (impl : FuncImpl) (names : NameTable) :
    ∀ (args : List Expr) (avs : List EvalVal),
      evalArgsE impl names args = .ok avs ↔
        (match args with
         | [] => avs = []
         | a :: rest => ∃ v vs, evalE impl names a = .ok v ∧
             evalArgsE impl names rest = .ok vs ∧ avs = v :: vs) := by
  intro args avs
  cases args with
  | nil =>
    show Except.ok [] = Except.ok avs ↔ _
    simp [eq_comm]
  | cons a rest =>
    show Except.bind (evalE impl names a)
        (fun v => Except.bind (evalArgsE impl names rest)
          (fun vs => Except.ok (v :: vs))) = .ok avs ↔ _
    rw [except_bind_ok]
    constructor
    · rintro ⟨v, hv, hrest⟩
      rw [except_bind_ok] at hrest
      rcases hrest with ⟨vs, hvs, hcons⟩
      exact ⟨v, vs, hv, hvs, by injection hcons with h; exact h.symm⟩
    · rintro ⟨v, vs, hv, hvs, rfl⟩
      exact ⟨v, hv, by rw [except_bind_ok]; exact ⟨vs, hvs, rfl⟩⟩

theorem evalArgs_all {impl : FuncImpl} {names : NameTable} :
    ∀ (args : List Expr) (avs : List EvalVal),
      (∀ a ∈ args, visitE names a = .ok () →
        ∀ v, evalE impl names a = .ok v → ScalarOrFunc v = true) →
      visitArgs names args = .ok () →
      evalArgsE impl names args = .ok avs →
      ∀ w ∈ avs, ScalarOrFunc w = true := by
  intro args
  induction args with
  | nil =>
    intro avs _ _ heval w hw
    rw [evalArgs_ok_iff] at heval
    subst heval
    exact absurd hw (by simp)
  | cons a rest ih =>
    intro avs hpt hvis heval w hw
    rw [evalArgs_ok_iff] at heval
    rcases heval with ⟨v, vs, hv, hvs, rfl⟩
    have hvisa : visitE names a = .ok () :=
      (visitArgs_ok_iff names _).mp hvis a (by simp)
    have hvisrest : visitArgs names rest = .ok () :=
      (visitArgs_ok_iff names rest).mpr
        (fun b hb => (visitArgs_ok_iff names _).mp hvis b (by simp [hb]))
    rcases List.mem_cons.mp hw with rfl | hw
    · exact hpt a (by simp) hvisa w hv
    · exact ih vs (fun b hb => hpt b (by simp [hb])) hvisrest hvs w hw

theorem eval_scalar_aux (impl : FuncImpl) (names : NameTable)
    (hT : ∀ p ∈ names, ScalarOrFunc p.2 = true)
    (hI : ∀ f as r, (∀ a ∈ as, ScalarOrFunc a = true) → impl f as = .ok r →
      ScalarOrFunc r = true) :
    ∀ (n : ℕ) (e : Expr), sizeOf e ≤ n → visitE names e = .ok () →
      ∀ v, evalE impl names e = .ok v → ScalarOrFunc v = true := by
  intro n
  induction n with
  | zero =>
    intro e he _
    cases e <;> simp at he
  | succ n ih =>
    intro e he hvis v heval
    cases e
    case constant c =>
      rw [visit_constant_ok_iff] at hvis
      have : Except.ok (constToVal c) = Except.ok v := heval
      injection this with hcv
      subst hcv
      simp [ScalarOrFunc, constToVal_scalar hvis]
    case name id =>
      have hrfl : evalE impl names (.name id) =
          (match names.lookup id with
           | some w => Except.ok w
           | none => Except.error (.nameError ("name '" ++ id ++ "' is not defined"))) := rfl
      rw [hrfl] at heval
      cases hl : names.lookup id with
      | none => rw [hl] at heval; exact Except.noConfusion heval
      | some w =>
        rw [hl] at heval
        injection heval with hwv
        subst hwv
        exact hT (id, w) (lookup_mem hl)
    case binOp op l r =>
      rw [visit_binOp_iff] at hvis
      obtain ⟨_, hl, hr⟩ := hvis
      have hrfl : evalE impl names (.binOp op l r) =
          Except.bind (evalE impl names l)
            (fun a => Except.bind (evalE impl names r)
              (fun b => pyBinOp op a b)) := rfl
      rw [hrfl, except_bind_ok] at heval
      rcases heval with ⟨a, ha, hrest⟩
      rw [except_bind_ok] at hrest
      rcases hrest with ⟨b, hb, hop⟩
      have hsa : ScalarOrFunc a = true := ih l (by simp at he; omega) hl a ha
      have hsb : ScalarOrFunc b = true := ih r (by simp at he; omega) hr b hb
      simp [ScalarOrFunc, pyBinOp_scalar hsa hsb hop]
    case unaryOp op o =>
      rw [visit_unaryOp_iff] at hvis
      obtain ⟨_, ho⟩ := hvis
      have hrfl : evalE impl names (.unaryOp op o) =
          Except.bind (evalE impl names o) (fun a => pyUnaryOp op a) := rfl
      rw [hrfl, except_bind_ok] at heval
      rcases heval with ⟨a, _, hop⟩
      simp [ScalarOrFunc, pyUnaryOp_scalar hop]
    case call f args kws =>
      rw [visit_call_iff] at hvis
      obtain ⟨fid, rfl, hs, rfl, hargs⟩ := hvis
      have hrfl : evalE impl names (.call (.name fid) args []) =
          Except.bind (evalE impl names (.name fid))
            (fun fv => Except.bind (evalArgsE impl names args)
              (fun avs =>
                match fv with
                | .funcV fn => impl fn avs
                | w => Except.error (.typeError ("'" ++ w.typeName ++ "' object is not callable")))) := rfl
      rw [hrfl, except_bind_ok] at heval
      rcases heval with ⟨fv, hfv, hrest⟩
      rw [except_bind_ok] at hrest
      rcases hrest with ⟨avs, havs, happ⟩
      have hall : ∀ w ∈ avs, ScalarOrFunc w = true := by
        refine evalArgs_all args avs (fun a hma hva w hw => ?_) hargs havs
        have hsa : sizeOf a ≤ n := by
          have := List.sizeOf_lt_of_mem hma
          simp at he
          omega
        exact ih a hsa hva w hw
      cases fv
      case funcV fn => exact hI fn avs v hall happ
      all_goals exact Except.noConfusion happ
    all_goals exact Except.noConfusion hvis

theorem lookup_append (k : String) :
    ∀ xs ys : NameTable, List.lookup k (xs ++ ys) =
      (match List.lookup k xs with
       | some v => some v
       | none => List.lookup k ys) := by
  intro xs ys
  induction xs with
  | nil => simp
  | cons p rest ih =>
    obtain ⟨a, w⟩ := p
    by_cases hk : (k == a) = true
    · simp [List.lookup, hk]
    · simp only [Bool.not_eq_true] at hk
      simp [List.lookup, hk, ih]

theorem lookup_map_self (f : String → EvalVal) :
    ∀ (l : List String) (k : String),
      List.lookup k (l.map (fun a => (a, f a))) =
        if k ∈ l then some (f k) else none := by
  intro l
  induction l with
  | nil => intro k; simp
  | cons a rest ih =>
    intro k
    by_cases hk : k = a
    · subst hk
      simp [List.lookup]
    · have hb : (k == a) = false := by simp [hk]
      simp [List.lookup, hb, hk, ih]

theorem safe_eval_of_visit_error {impl : FuncImpl} {names : NameTable}
    {t : Expression} {m : String} (h : visitExpression names t = .error m) :
    safe_eval impl names t = .error (.valueError m) := by
  show (match visitExpression names t with
        | .error m => Except.error (PyErr.valueError m)
        | .ok () => evalExpression impl names t) = _
  rw [h]

theorem safe_eval_ok_inv {impl : FuncImpl} {names : NameTable}
    {t : Expression} {v : EvalVal} (h : safe_eval impl names t = .ok v) :
    visitExpression names t = .ok () ∧ evalExpression impl names t = .ok v := by
  cases hv : visitExpression names t with
  | error m =>
    rw [safe_eval_of_visit_error hv] at h
    exact Except.noConfusion h
  | ok u =>
    cases u
    have heq : safe_eval impl names t = evalExpression impl names t := by
      show (match visitExpression names t with
            | .error m => Except.error (PyErr.valueError m)
            | .ok () => evalExpression impl names t) = _
      rw [hv]
    exact ⟨rfl, heq ▸ h⟩

/-! ## Claim theorems -/

/-- C1: validation rejects any node whose kind is outside the whitelist
{expression-root, allowed binary op, allowed unary op, call of a bare
name, name reference, numeric literal, load-context marker}: a
disallowed node anywhere in the tree makes the visitor raise a
`ValueError`, and a disallowed node is rejected with a reason naming
the offending construct (`visit_Attribute`'s fixed message for
attribute access, `generic_visit`'s class-naming message otherwise). -/
theorem C1_whitelist_closure :
    (∀ (names : NameTable) (e : Expr), containsDisallowed e = true →
        ∃ msg, visitE names e = .error msg)
    ∧ (∀ (names : NameTable) (e : Expr), isDisallowedKind e = true →
        visitE names e = .error (disallowedMsg e)) := by
  constructor
  · intro names e hc
    rw [exists_error_iff]
    exact contains_reject_aux names (sizeOf e) e le_rfl hc
  · intro names e hd
    cases e <;> first
      | rfl
      | (simp [isDisallowedKind] at hd)

theorem C1_whitelist_closure_witness :
    (containsDisallowed (.binOp .add (.constant (.intC 1)) (.listLit [])) = true
      ∧ ∃ msg, visitE build_safe_names
          (.binOp .add (.constant (.intC 1)) (.listLit [])) = .error msg)
    ∧ (isDisallowedKind (.attribute (.name "os") "system") = true
      ∧ visitE build_safe_names (.attribute (.name "os") "system")
          = .error (disallowedMsg (.attribute (.name "os") "system"))) :=
  ⟨⟨rfl, C1_whitelist_closure.1 build_safe_names _ rfl⟩,
   ⟨rfl, C1_whitelist_closure.2 build_safe_names _ rfl⟩⟩

/-- C2: a call is certified only when the callee is a bare name that is
a key of the table and no keyword arguments are present (and the
positional arguments validate); a non-name callee and a missing name
are rejected with the messages of `visit_Call`, `f(1)` fails with
`Function 'f' is not allowed`, and `round(3.14159, ndigits=2)` fails
validation although `round` is whitelisted. -/
theorem C2_call_validation :
    (∀ (names : NameTable) (fid : String) (args : List Expr)
        (kws : List (String × Expr)),
        visitE names (.call (.name fid) args kws) = .ok () ↔
          (names.lookup fid).isSome = true ∧ kws = [] ∧
            visitArgs names args = .ok ())
    ∧ (∀ (names : NameTable) (f : Expr) (args : List Expr)
        (kws : List (String × Expr)), (∀ fid, f ≠ .name fid) →
        visitE names (.call f args kws) =
          .error "Only direct function calls are allowed")
    ∧ (∀ (names : NameTable) (fid : String) (args : List Expr)
        (kws : List (String × Expr)), (names.lookup fid).isSome = false →
        visitE names (.call (.name fid) args kws) =
          .error ("Function '" ++ fid ++ "' is not allowed"))
    ∧ safe_eval defaultImpl build_safe_names fCallTree =
        .error (.valueError "Function 'f' is not allowed")
    ∧ safe_eval defaultImpl build_safe_names roundKwTree =
        .error (.valueError "Keyword arguments are not allowed") :=
  ⟨visit_call_name_iff, visit_call_nonname, visit_call_missing, rfl, rfl⟩

theorem C2_call_validation_witness :
    visitE build_safe_names (.call (.attribute (.name "os") "system") [] []) =
      .error "Only direct function calls are allowed"
    ∧ visitE build_safe_names (.call (.name "f") [.constant (.intC 1)] []) =
        .error ("Function '" ++ "f" ++ "' is not allowed") :=
  ⟨C2_call_validation.2.1 build_safe_names _ [] [] (fun _ h => Expr.noConfusion h),
   C2_call_validation.2.2.1 build_safe_names "f" _ [] rfl⟩

/-- C3: the pipeline evaluates nothing that has not been certified: a
parse failure surfaces as the `SyntaxError`, a validation failure
surfaces as exactly the validator's `ValueError` with no evaluation
performed, and a successful run implies the tree was certified against
the very table the evaluation then used. -/
theorem C3_validate_then_evaluate :
    (∀ (impl : FuncImpl) (names : NameTable) (m : String),
        safe_eval_parsed impl names (.error m) = .error (.syntaxError m))
    ∧ (∀ (impl : FuncImpl) (names : NameTable) (t : Expression) (m : String),
        visitExpression names t = .error m →
          safe_eval impl names t = .error (.valueError m))
    ∧ (∀ (impl : FuncImpl) (names : NameTable) (t : Expression) (v : EvalVal),
        safe_eval impl names t = .ok v →
          visitExpression names t = .ok () ∧
            evalExpression impl names t = .ok v) :=
  ⟨fun _ _ _ => rfl,
   fun _ _ _ _ h => safe_eval_of_visit_error h,
   fun _ _ _ _ h => safe_eval_ok_inv h⟩

theorem C3_validate_then_evaluate_witness :
    safe_eval defaultImpl build_safe_names ⟨.name "nope"⟩ =
      .error (.valueError "Name 'nope' is not allowed")
    ∧ (visitExpression build_safe_names maxTree = .ok ()
       ∧ evalExpression defaultImpl build_safe_names maxTree = .ok (.intV 3)) :=
  ⟨C3_validate_then_evaluate.2.1 defaultImpl build_safe_names _ _ rfl,
   C3_validate_then_evaluate.2.2 defaultImpl build_safe_names maxTree (.intV 3) rfl⟩

/-- C4 (counterexample to the claim as stated): a boolean literal is
*accepted* by `visit_Constant`, because `bool` is a subclass of `int`
and the check is `isinstance(value, (int, float, complex))`. -/
theorem C4_counterexample :
    visitE build_safe_names (.constant (.boolC true)) = .ok ()
    ∧ visitExpression build_safe_names ⟨.constant (.boolC true)⟩ = .ok () :=
  ⟨rfl, rfl⟩

/-- C4 (amended): a literal is accepted iff its value is an instance of
`int`, `float` or `complex` — which includes booleans, since `bool`
subclasses `int` — and strings, bytes and `None` are rejected with
`Only numeric constants are allowed`. -/
theorem C4_constant_validation :
    (∀ (names : NameTable) (c : ConstVal),
        visitE names (.constant c) =
          (if c.isPyNumber then .ok ()
           else .error "Only numeric constants are allowed"))
    ∧ (∀ n, (ConstVal.intC n).isPyNumber = true)
    ∧ (∀ q, (ConstVal.floatC q).isPyNumber = true)
    ∧ (∀ re im, (ConstVal.complexC re im).isPyNumber = true)
    ∧ (∀ b, (ConstVal.boolC b).isPyNumber = true)
    ∧ (∀ s, (ConstVal.strC s).isPyNumber = false)
    ∧ (∀ s, (ConstVal.bytesC s).isPyNumber = false)
    ∧ ConstVal.noneC.isPyNumber = false :=
  ⟨fun _ _ => rfl, fun _ => rfl, fun _ => rfl, fun _ _ => rfl, fun _ => rfl,
   fun _ => rfl, fun _ => rfl, rfl⟩

/-- C5: a binary operation validates exactly when its operator is in
{Add, Sub, Mult, Div, Mod, Pow, FloorDiv} (and its operands validate),
a unary operation exactly when its operator is in {UAdd, USub}; any
other operator is rejected with the operator-naming message, and
`2 @ 3` fails validation although the grammar parses it. -/
theorem C5_operator_closure :
    (∀ (names : NameTable) (op : BinOpK) (l r : Expr),
        visitE names (.binOp op l r) = .ok () ↔
          op ∈ ALLOWED_BINOPS ∧ visitE names l = .ok () ∧
            visitE names r = .ok ())
    ∧ (∀ (names : NameTable) (op : BinOpK) (l r : Expr), op ∉ ALLOWED_BINOPS →
        visitE names (.binOp op l r) =
          .error ("Operator " ++ binOpClassName op ++ " not allowed"))
    ∧ (∀ (names : NameTable) (op : UnaryOpK) (o : Expr),
        visitE names (.unaryOp op o) = .ok () ↔
          op ∈ ALLOWED_UNARYOPS ∧ visitE names o = .ok ())
    ∧ (∀ (names : NameTable) (op : UnaryOpK) (o : Expr), op ∉ ALLOWED_UNARYOPS →
        visitE names (.unaryOp op o) =
          .error ("Unary operator " ++ unaryOpClassName op ++ " not allowed"))
    ∧ visitExpression build_safe_names matMultTree =
        .error "Operator MatMult not allowed" := by
  refine ⟨visit_binOp_iff, ?_, visit_unaryOp_iff, ?_, rfl⟩
  · intro names op l r hop
    show (if op ∈ ALLOWED_BINOPS then _ else _) = _
    rw [if_neg hop]
  · intro names op o hop
    show (if op ∈ ALLOWED_UNARYOPS then _ else _) = _
    rw [if_neg hop]

theorem C5_operator_closure_witness :
    visitE build_safe_names (.binOp .matMult (.constant (.intC 2)) (.constant (.intC 3)))
      = .error ("Operator " ++ binOpClassName .matMult ++ " not allowed")
    ∧ visitE build_safe_names (.unaryOp .notOp (.constant (.intC 1)))
      = .error ("Unary operator " ++ unaryOpClassName .notOp ++ " not allowed") :=
  ⟨C5_operator_closure.2.1 build_safe_names .matMult _ _ (by decide),
   C5_operator_closure.2.2.2.1 build_safe_names .notOp _ (by decide)⟩

/-- C6: `evaluate("2 + 2 * sin(pi/2)", default_names)` succeeds with
`4.0` (exactly `4` in the real-number model of floats), and
`evaluate("max(1, 2, 3)", default_names)` returns the int `3`. -/
theorem C6_arithmetic_correctness :
    safe_eval defaultImpl build_safe_names sinTree = .ok (.floatV (.finite 4))
    ∧ safe_eval defaultImpl build_safe_names maxTree = .ok (.intV 3) := by
  refine ⟨?_, rfl⟩
  have hfb : floatBinOp .div (.finite Real.pi) (.finite ((2:ℤ):ℝ)) =
      .ok (.f (.finite (Real.pi / ((2:ℤ):ℝ)))) := by
    show (if ((2:ℤ):ℝ) = 0 then
            (Except.error (PyErr.zeroDivisionError "float division by zero") :
              Except PyErr NumVal)
          else .ok (.f (fDiv (.finite Real.pi) (.finite ((2:ℤ):ℝ))))) =
        .ok (.f (.finite (Real.pi / ((2:ℤ):ℝ))))
    rw [if_neg (by norm_num : ¬((2:ℤ):ℝ) = 0)]
    rfl
  have harg : evalE defaultImpl build_safe_names piOver2E =
      .ok (.floatV (.finite (Real.pi / ((2:ℤ):ℝ)))) := by
    calc evalE defaultImpl build_safe_names piOver2E
        = (floatBinOp .div (.finite Real.pi) (.finite ((2:ℤ):ℝ))).map numToVal := rfl
      _ = .ok (.floatV (.finite (Real.pi / ((2:ℤ):ℝ)))) := by rw [hfb]; rfl
  have hargs : evalArgsE defaultImpl build_safe_names [piOver2E] =
      .ok [.floatV (.finite (Real.pi / ((2:ℤ):ℝ)))] := by
    calc evalArgsE defaultImpl build_safe_names [piOver2E]
        = Except.bind (evalE defaultImpl build_safe_names piOver2E)
            (fun v => Except.bind (evalArgsE defaultImpl build_safe_names [])
              (fun vs => Except.ok (v :: vs))) := rfl
      _ = .ok [.floatV (.finite (Real.pi / ((2:ℤ):ℝ)))] := by rw [harg]; rfl
  have hcall : evalE defaultImpl build_safe_names sinCallE =
      .ok (.floatV (.finite (Real.sin (Real.pi / ((2:ℤ):ℝ))))) := by
    calc evalE defaultImpl build_safe_names sinCallE
        = Except.bind (evalArgsE defaultImpl build_safe_names [piOver2E])
            (fun avs => defaultImpl "sin" avs) := rfl
      _ = .ok (.floatV (.finite (Real.sin (Real.pi / ((2:ℤ):ℝ))))) := by
          rw [hargs]; rfl
  have hml : evalE defaultImpl build_safe_names
      (.binOp .mult (.constant (.intC 2)) sinCallE) =
      .ok (.floatV (.finite (((2:ℤ):ℝ) * Real.sin (Real.pi / ((2:ℤ):ℝ))))) := by
    calc evalE defaultImpl build_safe_names (.binOp .mult (.constant (.intC 2)) sinCallE)
        = Except.bind (evalE defaultImpl build_safe_names sinCallE)
            (fun b => pyBinOp .mult (.intV 2) b) := rfl
      _ = .ok (.floatV (.finite (((2:ℤ):ℝ) * Real.sin (Real.pi / ((2:ℤ):ℝ))))) := by
          rw [hcall]; rfl
  have hfin : safe_eval defaultImpl build_safe_names sinTree
      = .ok (.floatV (.finite (((2:ℤ):ℝ) + ((2:ℤ):ℝ) * Real.sin (Real.pi / ((2:ℤ):ℝ))))) := by
    calc safe_eval defaultImpl build_safe_names sinTree
        = Except.bind (evalE defaultImpl build_safe_names
            (.binOp .mult (.constant (.intC 2)) sinCallE))
            (fun b => pyBinOp .add (.intV 2) b) := rfl
      _ = _ := by rw [hml]; rfl
  rw [hfin]
  have h4 : ((2:ℤ):ℝ) + ((2:ℤ):ℝ) * Real.sin (Real.pi / ((2:ℤ):ℝ)) = 4 := by
    push_cast
    rw [Real.sin_pi_div_two]
    norm_num
  rw [h4]

/-- C7: `evaluate("1/0", default_names)` passes parsing and validation
and fails at the evaluation stage with a `ZeroDivisionError` — it does
not return a value, and in particular not an infinity. -/
theorem C7_division_by_zero :
    safe_eval defaultImpl build_safe_names divZeroTree =
      .error (.zeroDivisionError "division by zero")
    ∧ visitExpression build_safe_names divZeroTree = .ok () :=
  ⟨rfl, rfl⟩

/-- C8 (counterexample to the claim as stated): evaluating the bare
name `max` against the default table succeeds and returns the `max`
function object, which is not a numeric scalar. -/
theorem C8_counterexample :
    safe_eval defaultImpl build_safe_names ⟨.name "max"⟩ = .ok (.funcV "max")
    ∧ isScalar (.funcV "max") = false :=
  ⟨rfl, rfl⟩

/-- C8 (amended): over any name table whose entries are numeric scalars
or function objects, and any function behaviour that returns numeric
scalars or function objects on such arguments, a successful
`safe_eval` returns a numeric scalar *or a function object drawn from
the table* — a bare whitelisted function name evaluates to the
function itself. -/
theorem C8_scalar_or_function :
    ∀ (impl : FuncImpl) (names : NameTable) (t : Expression) (v : EvalVal),
      (∀ p ∈ names, ScalarOrFunc p.2 = true) →
      (∀ f as r, (∀ a ∈ as, ScalarOrFunc a = true) → impl f as = .ok r →
        ScalarOrFunc r = true) →
      safe_eval impl names t = .ok v → ScalarOrFunc v = true := by
  intro impl names t v hT hI h
  obtain ⟨hvis, heval⟩ := safe_eval_ok_inv h
  exact eval_scalar_aux impl names hT hI (sizeOf t.body) t.body le_rfl hvis v heval

theorem C8_scalar_or_function_witness : ScalarOrFunc (.intV 5) = true :=
  C8_scalar_or_function (fun _ _ => .error (.typeError "unavailable"))
    [("x", .intV 5)] ⟨.name "x"⟩ (.intV 5) (by decide)
    (fun _ _ _ _ h => Except.noConfusion h) rfl

/-- C9: `build_safe_names` is a fixed value of the model (hence every
call returns the same mapping); its keys are exactly the
non-underscore names of the `math` module together with `abs`, `round`,
`min` and `max`, each public `math` name is bound to `getattr(math, ·)`
and each builtin to its function object. -/
theorem C9_name_table :
    (∀ k : String, (build_safe_names.lookup k).isSome = true ↔
        ((k ∈ mathDirList ∧ startsWithUnderscore k = false) ∨
          k ∈ ["abs", "round", "min", "max"]))
    ∧ (∀ k, k ∈ mathDirList → startsWithUnderscore k = false →
        build_safe_names.lookup k = some (mathAttrVal k))
    ∧ build_safe_names.lookup "abs" = some (.funcV "abs")
    ∧ build_safe_names.lookup "round" = some (.funcV "round")
    ∧ build_safe_names.lookup "min" = some (.funcV "min")
    ∧ build_safe_names.lookup "max" = some (.funcV "max") := by
  have hmap : ∀ k : String, build_safe_names.lookup k =
      (match List.lookup k (publicMathNames.map (fun a => (a, mathAttrVal a))) with
       | some v => some v
       | none => List.lookup k (["abs", "round", "min", "max"].map
           (fun a => (a, EvalVal.funcV a)))) := by
    intro k
    exact lookup_append k _ _
  refine ⟨?_, ?_, rfl, rfl, rfl, rfl⟩
  · intro k
    rw [hmap, lookup_map_self, lookup_map_self]
    by_cases h1 : k ∈ publicMathNames
    · have : k ∈ mathDirList ∧ startsWithUnderscore k = false := by
        have := List.mem_filter.mp h1
        simpa using this
      simp [h1, this]
    · have : ¬(k ∈ mathDirList ∧ startsWithUnderscore k = false) := by
        intro ⟨ha, hb⟩
        exact h1 (List.mem_filter.mpr ⟨ha, by simp [hb]⟩)
      rw [if_neg h1]
      by_cases h2 : k ∈ ["abs", "round", "min", "max"]
      · simp [h2, this]
      · simp [h2, this]
  · intro k hk hu
    have h1 : k ∈ publicMathNames := List.mem_filter.mpr ⟨hk, by simp [hu]⟩
    rw [hmap, lookup_map_self]
    simp [h1]

theorem C9_name_table_witness :
    build_safe_names.lookup "sin" = some (mathAttrVal "sin")
    ∧ build_safe_names.lookup "pi" = some (mathAttrVal "pi")
    ∧ ((build_safe_names.lookup "__doc__").isSome = true ↔
        (("__doc__" ∈ mathDirList ∧ startsWithUnderscore "__doc__" = false) ∨
          "__doc__" ∈ ["abs", "round", "min", "max"])) :=
  ⟨C9_name_table.2.1 "sin" (by decide) rfl,
   C9_name_table.2.1 "pi" (by decide) rfl,
   C9_name_table.1 "__doc__"⟩

/-- C10: validation never checks that a whitelisted callee is callable:
a call of a bare name that is a key of the table certifies whenever its
arguments do, even when the name is bound to a non-callable constant;
at evaluation such a call raises `TypeError`, as `pi(1)` does against
the default table. -/
theorem C10_uncallable_passes_validation :
    (∀ (names : NameTable) (fid : String) (args : List Expr),
        (names.lookup fid).isSome = true → visitArgs names args = .ok () →
        visitE names (.call (.name fid) args []) = .ok ())
    ∧ (∀ (impl : FuncImpl) (names : NameTable) (fid : String) (args : List Expr)
        (v : EvalVal) (avs : List EvalVal),
        names.lookup fid = some v → isFuncVal v = false →
        evalArgsE impl names args = .ok avs →
        evalE impl names (.call (.name fid) args []) =
          .error (.typeError ("'" ++ v.typeName ++ "' object is not callable")))
    ∧ visitExpression build_safe_names piCallTree = .ok ()
    ∧ safe_eval defaultImpl build_safe_names piCallTree =
        .error (.typeError "'float' object is not callable") := by
  refine ⟨?_, ?_, rfl, rfl⟩
  · intro names fid args h1 h2
    rw [visit_call_name_iff]
    exact ⟨h1, rfl, h2⟩
  · intro impl names fid args v avs hl hf havs
    have hrfl : evalE impl names (.call (.name fid) args []) =
        Except.bind (evalE impl names (.name fid))
          (fun fv => Except.bind (evalArgsE impl names args)
            (fun avs =>
              match fv with
              | .funcV fn => impl fn avs
              | w => Except.error (.typeError ("'" ++ w.typeName ++ "' object is not callable")))) := rfl
    have hname : evalE impl names (.name fid) = .ok v := by
      have h0 : evalE impl names (.name fid) =
          (match names.lookup fid with
           | some w => Except.ok w
           | none => Except.error (.nameError ("name '" ++ fid ++ "' is not defined"))) := rfl
      rw [h0, hl]
    rw [hrfl, hname]
    show Except.bind (evalArgsE impl names args) _ = _
    rw [havs]
    show (match v with
          | .funcV fn => impl fn avs
          | w => Except.error (.typeError ("'" ++ w.typeName ++ "' object is not callable"))) = _
    cases v <;> first
      | rfl
      | (exact absurd hf (by simp [isFuncVal]))

theorem C10_uncallable_witness :
    visitE build_safe_names (.call (.name "pi") [.constant (.intC 1)] []) = .ok ()
    ∧ evalE defaultImpl build_safe_names (.call (.name "pi") [.constant (.intC 1)] []) =
        .error (.typeError ("'" ++ (EvalVal.floatV (.finite Real.pi)).typeName ++
          "' object is not callable")) :=
  ⟨C10_uncallable_passes_validation.1 build_safe_names "pi" _ rfl rfl,
   C10_uncallable_passes_validation.2.1 defaultImpl build_safe_names "pi" _
     (.floatV (.finite Real.pi)) [.intV 1] rfl rfl rfl⟩
